import Mathlib

/-!
# Verification of the Autonomise cross-source activity aggregation engine

A shallow embedding, in Lean 4, of the core of the Autonomise repository
(a JS/Express service that answers free-text questions about a person's
recent JIRA and GitHub activity), together with theorems settling the
frozen claims about it.

Embedding conventions:
* JS strings are `List Char`; string literals are written via `str`.
* JS objects become structures; JS `null`/absent fields become `Option`.
* JS objects used as string-keyed tallies (insertion-ordered) become
  association lists (`List (List Char × Nat)`) updated in place.
* JS `new Date(s)` comparisons are modelled by carrying dates as `Nat`
  (epoch milliseconds): `new Date(a) > new Date(b)` becomes `a > b`.
* Network calls are modelled by passing each call's outcome as data
  (`ReqOutcome`, `SettledResult`, `GenOutcome`); the count of issued
  lookups is returned explicitly where a claim speaks about calls.
* JS regexes stored on an instance and used with the `g` flag via
  `.test()` are stateful (`lastIndex`); that state is modelled
  explicitly (`QueryParser` state below).
-/

namespace Autonomise

/-- Coerce a Lean string literal to the `List Char` representation used
for JS strings throughout this development. -/
def str (s : String) : List Char := s.data

/-! ## Character classes (ASCII, as used by the JS regexes involved) -/

def isUpperChar (c : Char) : Bool := 'A' ≤ c && c ≤ 'Z'

def isLowerChar (c : Char) : Bool := 'a' ≤ c && c ≤ 'z'

def isLetterChar (c : Char) : Bool := isUpperChar c || isLowerChar c

def isDigitChar (c : Char) : Bool := '0' ≤ c && c ≤ '9'

/-- JS `\w`: letters, digits, underscore. -/
def isWordChar (c : Char) : Bool := isLetterChar c || isDigitChar c || c = '_'

/-- JS `\s` (restricted to the ASCII whitespace occurring in queries). -/
def isSpaceChar (c : Char) : Bool := c = ' ' || c = '\t' || c = '\n' || c = '\r'

/-- ASCII lower-casing, as performed by `String.prototype.toLowerCase`
and by case-insensitive (`i` flag) regex matching on ASCII input. -/
def lowerChar (c : Char) : Char :=
  if isUpperChar c then Char.ofNat (c.toNat + 32) else c

/-- `[...new Set(xs)]`: de-duplicate keeping the first occurrence of
each element, in insertion order (JS `Set` semantics). -/
def dedupKeepFirst [DecidableEq α] (seen : List α) : List α → List α
  | [] => []
  | x :: xs =>
    if x ∈ seen then dedupKeepFirst seen xs
    else x :: dedupKeepFirst (x :: seen) xs

/-! ## Data model (normalized record shapes produced by the two clients) -/

/-- A JIRA issue as normalized by `JiraClient.getAssignedIssues`. -/
structure JiraIssue where
  key : List Char
  summary : List Char
  status : List Char
  priority : List Char
  itype : List Char
  url : List Char
  deriving DecidableEq, Repr

/-- A commit as normalized by `GitHubClient.getRecentCommits`.
`date` is an epoch-millisecond timestamp (see header conventions). -/
structure Commit where
  sha : List Char
  message : List Char
  author : List Char
  date : Nat
  url : List Char
  repository : List Char
  jiraTickets : List (List Char)
  deriving DecidableEq, Repr

/-- A pull request as normalized by `GitHubClient.getActivePullRequests`. -/
structure PullRequest where
  number : Nat
  title : List Char
  state : List Char
  created : Nat
  updated : Nat
  url : List Char
  repository : List Char
  baseBranch : List Char
  headBranch : List Char
  deriving DecidableEq, Repr

/-- A repository-activity entry as built by
`GitHubClient.getRecentRepositories`. -/
structure Repository where
  name : List Char
  commitCount : Nat
  lastCommit : Nat
  deriving DecidableEq, Repr

/-- A recent-activity item from `JiraClient.getRecentActivity`; the
enricher only carries these through, so the payload is kept opaque. -/
structure RecentActivity where
  payload : List Char
  deriving DecidableEq, Repr

/-- The `jiraData` bundle handed to `DataEnricher.enrich` by the server;
fields that may be missing on a partially-populated bundle are `Option`
(the JS code guards every access with `|| []`). -/
structure JiraData where
  issues : Option (List JiraIssue)
  recentActivity : Option (List RecentActivity)
  deriving DecidableEq, Repr

/-- The `githubData` bundle handed to `DataEnricher.enrich`. -/
structure GithubData where
  commits : Option (List Commit)
  pullRequests : Option (List PullRequest)
  repositories : Option (List Repository)
  deriving DecidableEq, Repr

/-! ## DataEnricher (src/processors/data-enricher.js) -/

/-- Increment the tally for key `k` in an insertion-ordered association
list, appending a fresh entry when absent (JS `obj[k] = (obj[k]||0)+1`). -/
def bumpTally (k : List Char) : List (List Char × Nat) → List (List Char × Nat)
  | [] => [(k, 1)]
  | (k2, n) :: rest =>
    if k2 = k then (k2, n + 1) :: rest else (k2, n) :: bumpTally k rest

/-- Result shape of `DataEnricher.summarizeJira`.  In the source the
empty-input early return omits the `highPriority` field, hence `Option`. -/
structure JiraSummary where
  count : Nat
  byStatus : List (List Char × Nat)
  byPriority : List (List Char × Nat)
  byType : List (List Char × Nat)
  highPriority : Option Nat
  deriving DecidableEq, Repr

/-- The priorities counted as high by the enricher. -/
def highPriorityNames : List (List Char) := [str "High", str "Highest", str "Critical"]

/-- `DataEnricher.summarizeJira`. -/
def summarizeJira (issues : List JiraIssue) : JiraSummary :=
  if issues.length = 0 then
    { count := 0, byStatus := [], byPriority := [], byType := [], highPriority := none }
  else
    { count := issues.length
      byStatus := issues.foldl (fun m i => bumpTally i.status m) []
      byPriority := issues.foldl (fun m i => bumpTally i.priority m) []
      byType := issues.foldl (fun m i => bumpTally i.itype m) []
      highPriority :=
        some (issues.filter (fun i => highPriorityNames.contains i.priority)).length }

/-- Result shape of `DataEnricher.summarizeGitHub`. -/
structure GithubSummary where
  commitCount : Nat
  prCount : Nat
  repositoryCount : Nat
  activeRepositories : List (List Char)
  deriving DecidableEq, Repr

/-- `DataEnricher.summarizeGitHub`. -/
def summarizeGitHub (githubData : GithubData) : GithubSummary :=
  let commits := githubData.commits.getD []
  let prs := githubData.pullRequests.getD []
  let repos := githubData.repositories.getD []
  { commitCount := commits.length
    prCount := prs.length
    repositoryCount := repos.length
    activeRepositories := (repos.take 5).map (·.name) }

/-- The commit half of a `LinkedPair` (the fields the enricher copies). -/
structure LinkedCommit where
  sha : List Char
  message : List Char
  date : Nat
  url : List Char
  repository : List Char
  deriving DecidableEq, Repr

/-- The ticket half of a `LinkedPair`. -/
structure LinkedTicket where
  key : List Char
  summary : List Char
  status : List Char
  url : List Char
  deriving DecidableEq, Repr

/-- A commit–ticket pair emitted by `DataEnricher.linkCommitsToTickets`. -/
structure LinkedPair where
  commit : LinkedCommit
  ticket : LinkedTicket
  deriving DecidableEq, Repr

/-- `DataEnricher.linkCommitsToTickets`: for each commit, for each of its
referenced ticket keys present in the issue set, emit one pair, taking
the first issue with that key. -/
def linkCommitsToTickets (commits : List Commit) (issues : List JiraIssue) :
    List LinkedPair :=
  let issueKeys := issues.map (·.key)
  commits.flatMap fun c =>
    c.jiraTickets.filterMap fun ticketKey =>
      if issueKeys.contains ticketKey then
        match issues.find? (fun i => i.key = ticketKey) with
        | some issue =>
          some { commit := { sha := c.sha, message := c.message, date := c.date,
                             url := c.url, repository := c.repository }
                 ticket := { key := issue.key, summary := issue.summary,
                             status := issue.status, url := issue.url } }
        | none => none
      else none

/-- The `activityLevel` enum. -/
inductive ActivityLevel where
  | low
  | medium
  | high
  deriving DecidableEq, Repr

/-- The `timeframe` field of `Metrics`: `timeframe || 'recent'` (note
that the JS falsy test sends both `null` and `0` to `'recent'`). -/
inductive TimeframeVal where
  | days (n : Nat)
  | recent
  deriving DecidableEq, Repr

/-- `timeframe || 'recent'`. -/
def timeframeVal : Option Nat → TimeframeVal
  | none => .recent
  | some 0 => .recent
  | some n => .days n

/-- The level thresholds of `DataEnricher.calculateMetrics` (the inline
`if (activityScore > 20) ... else if (activityScore > 10) ...` chain). -/
def activityLevelOf (score : Nat) : ActivityLevel :=
  if score > 20 then .high
  else if score > 10 then .medium
  else .low

/-- The `metrics` object produced by `DataEnricher.calculateMetrics`. -/
structure Metrics where
  activityScore : Nat
  activityLevel : ActivityLevel
  totalItems : Nat
  timeframe : TimeframeVal
  deriving DecidableEq, Repr

/-- `DataEnricher.calculateMetrics`. -/
def calculateMetrics (jiraData : JiraData) (githubData : GithubData)
    (timeframe : Option Nat) : Metrics :=
  let commits := githubData.commits.getD []
  let issues := jiraData.issues.getD []
  let prs := githubData.pullRequests.getD []
  let activityScore := issues.length * 2 + commits.length * 1 + prs.length * 3
  { activityScore := activityScore
    activityLevel := activityLevelOf activityScore
    totalItems := issues.length + commits.length + prs.length
    timeframe := timeframeVal timeframe }

/-- The kinds of pattern flag emitted by
`DataEnricher.identifyWorkPatterns`. -/
inductive PatternType where
  | multiple_high_priority
  | multi_repository
  | many_open_prs
  | good_tracking
  deriving DecidableEq, Repr

/-- The `impact` values attached to pattern flags. -/
inductive Impact where
  | high
  | medium
  | positive
  deriving DecidableEq, Repr

/-- A pattern flag; `description` carries the interpolated display text
built in the source. -/
structure Pattern where
  ptype : PatternType
  description : List Char
  impact : Impact
  deriving DecidableEq, Repr

/-- Decimal rendering of a count, as JS template-literal interpolation
of a number does. -/
def natChars (n : Nat) : List Char := Nat.toDigits 10 n

/-- `DataEnricher.identifyWorkPatterns`.  The JS majority test
`linked.length > commits.length * 0.5` is, on these non-negative
integers, equivalent to `2 * linked.length > commits.length`. -/
def identifyWorkPatterns (jiraData : JiraData) (githubData : GithubData) :
    List Pattern :=
  let issues := jiraData.issues.getD []
  let commits := githubData.commits.getD []
  let prs := githubData.pullRequests.getD []
  let highPriorityCount :=
    (issues.filter (fun i => highPriorityNames.contains i.priority)).length
  let p1 : List Pattern :=
    if highPriorityCount > 3 then
      [{ ptype := .multiple_high_priority
         description := str "Working on " ++ natChars highPriorityCount
           ++ str " high-priority items"
         impact := .high }]
    else []
  let repoCount := (dedupKeepFirst [] (commits.map (·.repository))).length
  let p2 : List Pattern :=
    if repoCount > 5 then
      [{ ptype := .multi_repository
         description := str "Contributing to " ++ natChars repoCount
           ++ str " different repositories"
         impact := .medium }]
    else []
  let p3 : List Pattern :=
    if prs.length > 5 then
      [{ ptype := .many_open_prs
         description := str "Has " ++ natChars prs.length ++ str " open pull requests"
         impact := .medium }]
    else []
  let linked := linkCommitsToTickets commits issues
  let p4 : List Pattern :=
    if 2 * linked.length > commits.length then
      [{ ptype := .good_tracking
         description := str "Most commits are linked to JIRA tickets"
         impact := .positive }]
    else []
  p1 ++ p2 ++ p3 ++ p4

/-- The `jira` section of the enriched model. -/
structure JiraSection where
  activeIssues : List JiraIssue
  recentActivity : List RecentActivity
  summary : JiraSummary
  deriving DecidableEq, Repr

/-- The `github` section of the enriched model. -/
structure GithubSection where
  commits : List Commit
  pullRequests : List PullRequest
  repositories : List Repository
  summary : GithubSummary
  deriving DecidableEq, Repr

/-- The enriched model returned by `DataEnricher.enrich`. -/
structure EnrichedModel where
  jira : JiraSection
  github : GithubSection
  linked : List LinkedPair
  metrics : Metrics
  workPatterns : List Pattern
  deriving DecidableEq, Repr

/-- `DataEnricher.enrich`. -/
def enrich (jiraData : JiraData) (githubData : GithubData)
    (timeframe : Option Nat) : EnrichedModel :=
  { jira :=
      { activeIssues := jiraData.issues.getD []
        recentActivity := jiraData.recentActivity.getD []
        summary := summarizeJira (jiraData.issues.getD []) }
    github :=
      { commits := githubData.commits.getD []
        pullRequests := githubData.pullRequests.getD []
        repositories := githubData.repositories.getD []
        summary := summarizeGitHub githubData }
    linked := linkCommitsToTickets (githubData.commits.getD []) (jiraData.issues.getD [])
    metrics := calculateMetrics jiraData githubData timeframe
    workPatterns := identifyWorkPatterns jiraData githubData }

/-! ## QueryParser (src/processors/query-parser.js)

The time-pattern regexes are created once in the constructor with the
`g` flag and probed with `.test()`; a `g`-flag regex carries a mutable
`lastIndex` across calls (advanced past a successful match, reset to 0
on failure), so `extractTimeframe` — and hence `parse` — is stateful.
The per-pattern `lastIndex` values form the parser state modelled here.
The name/intent/platform regexes are re-created on every call and are
stateless. -/

/-- Case-insensitive literal match at the head of the input; returns the
rest on success. -/
def matchLit : List Char → List Char → Option (List Char)
  | [], cs => some cs
  | _ :: _, [] => none
  | w :: ws, c :: cs => if lowerChar c = lowerChar w then matchLit ws cs else none

/-- `\s+` at the head of the input (greedy).  The tokens that may follow
`\s+` in the regexes modelled here never start with whitespace, so the
maximal munch needs no backtracking. -/
def matchSpaces1 : List Char → Option (List Char)
  | [] => none
  | c :: cs => if isSpaceChar c then some (cs.dropWhile isSpaceChar) else none

/-- Like `matchSpaces1` but also returns the consumed whitespace (needed
where the matched text itself is used). -/
def matchSpacesTok : List Char → Option (List Char × List Char)
  | [] => none
  | c :: cs =>
    if isSpaceChar c then some (c :: cs.takeWhile isSpaceChar, cs.dropWhile isSpaceChar)
    else none

/-- Match one phrase — literal words separated by `\s+` — at the head of
the input. -/
def matchPhrase : List (List Char) → List Char → Option (List Char)
  | [], cs => some cs
  | [w], cs => matchLit w cs
  | w :: ws, cs =>
    match matchLit w cs with
    | none => none
    | some rest =>
      match matchSpaces1 rest with
      | none => none
      | some rest2 => matchPhrase ws rest2

/-- Regex alternation: try the alternatives in order at the current
position (each alternative is one phrase). -/
def matchAlts (alts : List (List (List Char))) (cs : List Char) : Option (List Char) :=
  match alts with
  | [] => none
  | a :: rest =>
    match matchPhrase a cs with
    | some r => some r
    | none => matchAlts rest cs

/-- Scan for the first position `≥ pos` at which some alternative
matches; returns the end position of the match. -/
def searchFrom (alts : List (List (List Char))) : List Char → Nat → Option Nat
  | [], pos =>
    match matchAlts alts [] with
    | some _ => some pos
    | none => none
  | c :: cs, pos =>
    match matchAlts alts (c :: cs) with
    | some rest => some (pos + ((c :: cs).length - rest.length))
    | none => searchFrom alts cs (pos + 1)

/-- `RegExp.prototype.test` on a `g`-flag regex: search from
`lastIndex`; on a match return `true` and set `lastIndex` to the match
end, on failure return `false` and reset `lastIndex` to 0. -/
def regexTestG (alts : List (List (List Char))) (text : List Char)
    (lastIndex : Nat) : Bool × Nat :=
  match searchFrom alts (text.drop lastIndex) lastIndex with
  | some e => (true, e)
  | none => (false, 0)

/-- One entry of `QueryParser.timePatterns`. -/
structure TimePattern where
  alts : List (List (List Char))
  days : Nat

/-- `QueryParser.timePatterns`, in source order. -/
def timePatterns : List TimePattern :=
  [ ⟨[[str "this", str "week"]], 7⟩,
    ⟨[[str "last", str "week"]], 14⟩,
    ⟨[[str "this", str "month"]], 30⟩,
    ⟨[[str "last", str "month"]], 60⟩,
    ⟨[[str "recently"], [str "lately"], [str "these", str "days"]], 14⟩,
    ⟨[[str "today"]], 1⟩,
    ⟨[[str "yesterday"]], 2⟩ ]

/-- The mutable parser state: one `lastIndex` per time pattern. -/
def initParserState : List Nat := List.replicate timePatterns.length 0

/-- `QueryParser.extractTimeframe`: probe the patterns in order with
`.test()`, returning the first matching pattern's day count; threads
every probed pattern's `lastIndex` (patterns after an early return keep
their previous state). -/
def extractTimeframe (text : List Char) :
    List (TimePattern × Nat) → Option Nat × List Nat
  | [] => (none, [])
  | (p, li) :: rest =>
    match regexTestG p.alts text li with
    | (true, li2) => (some p.days, li2 :: rest.map (·.2))
    | (false, li2) =>
      let (r, st) := extractTimeframe text rest
      (r, li2 :: st)

/-! ### extractName -/

/-- `^(what|show|tell|give|list|find)\s+(me|us)?` stripped from the
start (the `replace` with `''`); the optional `(me|us)` is tried in
alternation order. -/
def stripPattern1 (cs : List Char) : List Char :=
  let stripMeUs (r : List Char) : List Char :=
    match matchLit (str "me") r with
    | some r2 => r2
    | none =>
      match matchLit (str "us") r with
      | some r2 => r2
      | none => r
  let rec tryAlts : List (List Char) → Option (List Char)
    | [] => none
    | w :: ws =>
      match matchLit w cs with
      | some r =>
        (match matchSpaces1 r with
         | some r2 => some (stripMeUs r2)
         | none => tryAlts ws)
      | none => tryAlts ws
  match tryAlts [str "what", str "show", str "tell", str "give", str "list", str "find"] with
  | some rest => rest
  | none => cs

/-- `^(is|has|have|was|were|does|did)\s+` stripped from the start. -/
def stripPattern2 (cs : List Char) : List Char :=
  let rec tryAlts : List (List Char) → Option (List Char)
    | [] => none
    | w :: ws =>
      match matchLit w cs with
      | some r =>
        (match matchSpaces1 r with
         | some r2 => some r2
         | none => tryAlts ws)
      | none => tryAlts ws
  match tryAlts [str "is", str "has", str "have", str "was", str "were",
                 str "does", str "did"] with
  | some rest => rest
  | none => cs

/-- The gerund alternatives of the third `replace`. -/
def gerundWords : List (List Char) :=
  [str "working", str "been", str "doing", str "up", str "on",
   str "committed", str "created"]

/-- Try the gerund alternatives at the head of the input. -/
def matchGerund (cs : List Char) : Option (List Char) :=
  matchAlts (gerundWords.map (fun w => [w])) cs

/-- Global replace of `/\s+(working|been|doing|up|on|committed|created)/`
by the empty string.  The alternatives all start with letters, so greedy
`\s+` needs no backtracking, and a failed match advances one character.
`fuel` bounds the recursion; each step consumes at least one input
character, so `fuel = input length` never runs out. -/
def replace3Aux : Nat → List Char → List Char
  | 0, cs => cs
  | _ + 1, [] => []
  | fuel + 1, c :: cs =>
    if isSpaceChar c then
      match matchSpaces1 (c :: cs) with
      | some rest =>
        (match matchGerund rest with
         | some rest2 => replace3Aux fuel rest2
         | none => c :: replace3Aux fuel cs)
      | none => c :: replace3Aux fuel cs
    else c :: replace3Aux fuel cs

/-- The third `replace` of `extractName`. -/
def replace3 (cs : List Char) : List Char := replace3Aux cs.length cs

/-- `String.prototype.trim`. -/
def trimList (cs : List Char) : List Char :=
  ((cs.dropWhile isSpaceChar).reverse.dropWhile isSpaceChar).reverse

/-- Worker for `split(/\s+/)`: runs of whitespace separate the words
and, like JS, a trailing run yields a final `""`.  `fuel` bounds the
recursion; every step consumes at least one input character, so
`fuel = input length` never runs out. -/
def splitWsAux : Nat → List Char → List Char → List (List Char)
  | 0, cur, _ => [cur.reverse]
  | _ + 1, cur, [] => [cur.reverse]
  | fuel + 1, cur, c :: cs =>
    if isSpaceChar c then cur.reverse :: splitWsAux fuel [] (cs.dropWhile isSpaceChar)
    else splitWsAux fuel (c :: cur) cs

/-- `cleaned.split(/\s+/)`. -/
def splitWs (cs : List Char) : List (List Char) :=
  splitWsAux cs.length [] cs

/-- `/^[A-Z][a-z]+$/`: one uppercase letter then one or more lowercase. -/
def isNameShape : List Char → Bool
  | [] => false
  | c :: rest => isUpperChar c && !rest.isEmpty && rest.all isLowerChar

/-- The stop-word list of `QueryParser.isCommonWord`. -/
def commonWords : List (List Char) :=
  [str "what", str "show", str "tell", str "give", str "list", str "find",
   str "is", str "has", str "have", str "was", str "were", str "does",
   str "did", str "working", str "been", str "doing", str "up", str "on",
   str "committed", str "created", str "recent", str "recently",
   str "lately", str "these", str "days", str "week", str "month",
   str "jira", str "github", str "ticket", str "issue", str "commit",
   str "pull", str "request", str "pr", str "code", str "repository",
   str "repo"]

/-- `QueryParser.isCommonWord`. -/
def isCommonWord (w : List Char) : Bool :=
  commonWords.contains (w.map lowerChar)

/-- The candidate-collection loop of `extractName`: push each word of
name shape that is not a stop word, stopping once three are collected. -/
def collectCands (acc : List (List Char)) : List (List Char) → List (List Char)
  | [] => acc.reverse
  | w :: ws =>
    if isNameShape w && !isCommonWord w then
      let acc2 := w :: acc
      if acc2.length ≥ 3 then acc2.reverse else collectCands acc2 ws
    else collectCands acc ws

/-- `nameCandidates.join(' ')`. -/
def joinSpace : List (List Char) → List Char
  | [] => []
  | [w] => w
  | w :: ws => w ++ ' ' :: joinSpace ws

/-- Greedy `[A-Z][a-z]+` at the head; returns (matched, rest). -/
def matchCapWord : List Char → Option (List Char × List Char)
  | [] => none
  | c :: cs =>
    if isUpperChar c then
      let ls := cs.takeWhile isLowerChar
      if ls.isEmpty then none else some (c :: ls, cs.dropWhile isLowerChar)
    else none

/-- `\b` looking right: end of input or a non-word character next. -/
def noWordAhead : List Char → Bool
  | [] => true
  | c :: _ => !isWordChar c

/-- The fallback regex `\b[A-Z][a-z]+(?:\s+[A-Z][a-z]+)?\b` tried at one
position (the leading `\b` is the caller's charge).  Backtracking inside
the greedy character classes can never rescue a failed trailing `\b`
(the follow character would still be a word character), so only the
optional group is retried: if the two-word form fails its boundary, the
one-word form still matches because the next character is whitespace. -/
def fallbackAt (cs : List Char) : Option (List Char) :=
  match matchCapWord cs with
  | none => none
  | some (w1, r1) =>
    match matchSpacesTok r1 with
    | some (sp, r2) =>
      (match matchCapWord r2 with
       | some (w2, r3) =>
         if noWordAhead r3 then some (w1 ++ sp ++ w2)
         else if noWordAhead r1 then some w1
         else none
       | none => if noWordAhead r1 then some w1 else none)
    | none => if noWordAhead r1 then some w1 else none

/-- Scan the cleaned text for the first position, preceded by a word
boundary, where the fallback regex matches. -/
def fallbackScan (prevIsWord : Bool) : List Char → Option (List Char)
  | [] => none
  | c :: cs =>
    if prevIsWord then fallbackScan (isWordChar c) cs
    else
      match fallbackAt (c :: cs) with
      | some m => some m
      | none => fallbackScan (isWordChar c) cs

/-- `QueryParser.extractName`. -/
def extractName (query : List Char) : Option (List Char) :=
  let cleaned := trimList (replace3 (stripPattern2 (stripPattern1 query)))
  let cands := collectCands [] (splitWs cleaned)
  if !cands.isEmpty then some (joinSpace cands)
  else fallbackScan false cleaned

/-! ### intent, platform, parse -/

/-- The intent strings returned by `QueryParser.extractIntent`. -/
inductive Intent where
  | general
  | commits
  | pull_requests
  | jira_issues
  | repositories
  deriving DecidableEq, Repr

/-- Whether `pat` occurs as a contiguous substring of `text`
(`String.prototype.includes`). -/
def containsSub (pat : List Char) : List Char → Bool
  | [] => pat.isEmpty
  | c :: rest => (matchLit pat (c :: rest)).isSome || containsSub pat rest

/-- `QueryParser.extractIntent` (substring checks, in source order, on
the lower-cased query). -/
def extractIntent (query : List Char) : Intent :=
  let n := query.map lowerChar
  if containsSub (str "pull request") n || containsSub (str "pr") n then .pull_requests
  else if containsSub (str "commit") n then .commits
  else if containsSub (str "ticket") n || containsSub (str "issue") n then .jira_issues
  else if containsSub (str "repository") n || containsSub (str "repo") n then .repositories
  else .general

/-- The platform-bias values. -/
inductive Platform where
  | jira
  | github
  | both
  deriving DecidableEq, Repr

/-- `QueryParser.platformKeywords`. -/
def jiraKeywords : List (List Char) :=
  [str "jira", str "ticket", str "issue", str "task", str "bug", str "story"]

/-- `QueryParser.platformKeywords.github`. -/
def githubKeywords : List (List Char) :=
  [str "github", str "commit", str "pull request", str "pr", str "code",
   str "repository", str "repo"]

/-- `QueryParser.extractPlatform`. -/
def extractPlatform (query : List Char) : Platform :=
  let n := query.map lowerChar
  let jiraScore := (jiraKeywords.filter (fun kw => containsSub kw n)).length
  let githubScore := (githubKeywords.filter (fun kw => containsSub kw n)).length
  if jiraScore > githubScore then .jira
  else if githubScore > jiraScore then .github
  else .both

/-- The result shape of `QueryParser.parse`. -/
structure ParsedQuery where
  originalQuery : List Char
  name : Option (List Char)
  timeframe : Option Nat
  intent : Intent
  platform : Platform
  deriving DecidableEq, Repr

/-- `QueryParser.parse`, with the parser instance's mutable regex state
made explicit: takes and returns the per-pattern `lastIndex` list. -/
def parse (state : List Nat) (query : List Char) : ParsedQuery × List Nat :=
  let (tf, state') := extractTimeframe query (timePatterns.zip state)
  ({ originalQuery := query
     name := extractName query
     timeframe := tf
     intent := extractIntent query
     platform := extractPlatform query }, state')

/-! ## GitHubClient (src/clients/github-client.js) -/

/-- One attempt of `/([A-Z]+-\d+)/gi` at the head of the input: one or
more letters (the `i` flag makes `[A-Z]` match either case), a hyphen,
one or more digits.  Both classes are greedy; neither class contains
`-`, so no backtracking is possible.  Returns (matched token, rest). -/
def matchTicketAt (cs : List Char) : Option (List Char × List Char) :=
  let ls := cs.takeWhile isLetterChar
  if ls.isEmpty then none
  else
    match cs.dropWhile isLetterChar with
    | '-' :: r2 =>
      let ds := r2.takeWhile isDigitChar
      if ds.isEmpty then none
      else some (ls ++ '-' :: ds, r2.dropWhile isDigitChar)
    | _ => none

/-- `message.match(/([A-Z]+-\d+)/gi)`: all non-overlapping matches, left
to right.  `fuel` bounds the recursion; every step consumes at least one
character, so `fuel = input length` never runs out. -/
def scanTicketsAux : Nat → List Char → List (List Char)
  | 0, _ => []
  | _ + 1, [] => []
  | fuel + 1, c :: cs =>
    match matchTicketAt (c :: cs) with
    | some (tok, rest) => tok :: scanTicketsAux fuel rest
    | none => scanTicketsAux fuel cs

/-- All ticket tokens of a commit message, in match order. -/
def scanTickets (message : List Char) : List (List Char) :=
  scanTicketsAux message.length message

/-- The `jiraTickets` field built by `GitHubClient.getRecentCommits`:
`[...new Set(message.match(/([A-Z]+-\d+)/gi) || [])]`. -/
def extractJiraTickets (message : List Char) : List (List Char) :=
  dedupKeepFirst [] (scanTickets message)

/-! ### findUser

`GitHubClient.findUser` is asynchronous I/O; its control flow is pure
once each network request's outcome is fixed, so the two requests it can
issue (direct `/users/:name` lookup, `/search/users` fallback) are
passed as outcome data.  `makeRequest` maps an HTTP outcome to either a
returned payload (`Except.ok`) or a thrown error (`Except.error`):
404 and 401 are converted to a `null` response rather than thrown. -/

/-- Outcome of one HTTP request before `makeRequest`'s handling. -/
inductive ReqOutcome (α : Type) where
  | ok (payload : α)
  | notFound
  | unauthorized
  | fail
  deriving DecidableEq, Repr

/-- `GitHubClient.makeRequest`: a 404 or 401 response yields `null`
(`Except.ok none`) instead of throwing; any other error propagates. -/
def makeRequest : ReqOutcome α → Except Unit (Option α)
  | .ok payload => .ok (some payload)
  | .notFound => .ok none
  | .unauthorized => .ok none
  | .fail => .error ()

/-- A GitHub user payload (only identity matters to the claims). -/
structure GHUser where
  login : List Char
  deriving DecidableEq, Repr

/-- `GitHubClient.findUser`: result paired with the number of user
lookups issued.  Total by construction — the JS wraps every path in
try/catch and returns `null`, never throwing. -/
def findUser (tokenConfigured : Bool) (cached : Option GHUser)
    (direct : ReqOutcome GHUser) (search : ReqOutcome (List GHUser)) :
    Option GHUser × Nat :=
  if !tokenConfigured then (none, 0)
  else
    match cached with
    | some u => (some u, 0)
    | none =>
      match makeRequest direct with
      | .ok (some u) => (some u, 1)
      | .ok none => (none, 1)
      | .error _ =>
        match makeRequest search with
        | .ok (some (u :: _)) => (some u, 2)
        | .ok (some []) => (none, 2)
        | .ok none => (none, 2)
        | .error _ => (none, 2)

/-! ### getRecentRepositories -/

/-- One step of the `commits.forEach` aggregation in
`GitHubClient.getRecentRepositories`: create a map entry on first sight
(count 0, lastCommit = this commit's date), then increment the count and
advance `lastCommit` when this commit is strictly newer. -/
def updateRepos (m : List Repository) (c : Commit) : List Repository :=
  if m.any (fun r => r.name = c.repository) then
    m.map fun r =>
      if r.name = c.repository then
        { r with commitCount := r.commitCount + 1
                 lastCommit := if c.date > r.lastCommit then c.date else r.lastCommit }
      else r
  else
    m ++ [{ name := c.repository, commitCount := 1, lastCommit := c.date }]

/-- The repository map of `getRecentRepositories`, in insertion order
(JS `Map` preserves it). -/
def buildRepos (commits : List Commit) : List Repository :=
  commits.foldl updateRepos []

/-- The sort comparator `(a, b) => new Date(b.lastCommit) - new Date(a.lastCommit)`
as a `≤`-style relation: `a` may precede `b` iff `b` is not newer. -/
def repoLe (a b : Repository) : Prop := b.lastCommit ≤ a.lastCommit

instance : DecidableRel repoLe := fun a b => Nat.decLe b.lastCommit a.lastCommit

/-- The pure core of `GitHubClient.getRecentRepositories` (after the
commits are fetched): group by repository, sort by last-commit date
descending, keep the first 10.  ECMAScript requires `Array.prototype.sort`
to be stable, and a stable sort's output is unique, so the stable
`insertionSort` gives exactly the JS result. -/
def getRecentRepositories (commits : List Commit) : List Repository :=
  ((buildRepos commits).insertionSort repoLe).take 10

/-! ## Aggregation in the query route (src/server.js, /api/query)

The five activity fetches run under `Promise.allSettled`; a fetch gated
on a missing identity is replaced by `Promise.resolve([])`.  Each
settled result is mapped to its value when fulfilled and to `[]` when
rejected. -/

/-- One settled promise of a record list. -/
inductive SettledResult (α : Type) where
  | fulfilled (value : α)
  | rejected
  deriving DecidableEq, Repr

/-- `result.status === 'fulfilled' ? result.value : []`. -/
def settleValue : SettledResult (List α) → List α
  | .fulfilled v => v
  | .rejected => []

/-- The five fetch outcomes of one query. -/
structure FetchOutcomes where
  jiraIssues : SettledResult (List JiraIssue)
  jiraActivity : SettledResult (List RecentActivity)
  commits : SettledResult (List Commit)
  prs : SettledResult (List PullRequest)
  repos : SettledResult (List Repository)

/-- `user ? fetch : Promise.resolve([])`: an absent identity replaces
the fetch by an immediately fulfilled empty list. -/
def gatedFetch (userPresent : Bool) (o : SettledResult (List α)) :
    SettledResult (List α) :=
  if userPresent then o else .fulfilled []

/-- The record bundles extracted from the settled results. -/
structure FetchedBundles where
  jiraIssues : List JiraIssue
  jiraActivity : List RecentActivity
  commits : List Commit
  prs : List PullRequest
  repos : List Repository
  deriving DecidableEq, Repr

/-- Lines 93–104 of the query route: gate each fetch on its identity,
settle all five, default rejections to `[]`. -/
def aggregateFetches (jiraUserPresent githubUserPresent : Bool)
    (o : FetchOutcomes) : FetchedBundles :=
  { jiraIssues := settleValue (gatedFetch jiraUserPresent o.jiraIssues)
    jiraActivity := settleValue (gatedFetch jiraUserPresent o.jiraActivity)
    commits := settleValue (gatedFetch githubUserPresent o.commits)
    prs := settleValue (gatedFetch githubUserPresent o.prs)
    repos := settleValue (gatedFetch githubUserPresent o.repos) }

/-! ## ResponseGenerator (src/processors/response-generator.js)

The OpenAI call is I/O; its outcome is passed as data (`GenOutcome`).
Everything else — the template renderer and the error responses — is
pure string building, embedded verbatim. -/

/-- Outcome of the generative (OpenAI) strategy. -/
inductive GenOutcome where
  | success (text : List Char)
  | failure
  deriving DecidableEq, Repr

/-- Join string pieces with a separator (`Array.prototype.join`). -/
def joinSep (sep : List Char) : List (List Char) → List Char
  | [] => []
  | [x] => x
  | x :: xs => x ++ sep ++ joinSep sep xs

/-- The display string of an activity level (the JS value is the string
itself). -/
def levelChars : ActivityLevel → List Char
  | .low => str "low"
  | .medium => str "medium"
  | .high => str "high"

/-- `ResponseGenerator.generateTemplateResponse`.  The `query` argument
is unused in the source as well.  Note the final override: when
`metrics.totalItems === 0` the whole built text is replaced. -/
def generateTemplateResponse (enrichedData : EnrichedModel)
    (userName : List Char) : List Char :=
  let jiraSummary := enrichedData.jira.summary
  let githubSummary := enrichedData.github.summary
  let linked := enrichedData.linked
  let metrics := enrichedData.metrics
  let r0 := str "Here\x27s what " ++ userName ++ str " has been working on:\n\n"
  let rJira :=
    if jiraSummary.count > 0 then
      (str "📋 **JIRA Activity** (" ++ natChars jiraSummary.count
        ++ str " active issues):\n")
      ++ (if jiraSummary.highPriority.getD 0 > 0 then
            str "⚠️ " ++ natChars (jiraSummary.highPriority.getD 0)
              ++ str " high-priority items\n"
          else [])
      ++ (if !jiraSummary.byStatus.isEmpty then
            str "Status: "
              ++ joinSep (str ", ")
                   (jiraSummary.byStatus.map fun e =>
                     e.1 ++ str " (" ++ natChars e.2 ++ str ")")
              ++ str "\n"
          else [])
      ++ (if !enrichedData.jira.activeIssues.isEmpty then
            str "\nKey issues:\n"
              ++ (enrichedData.jira.activeIssues.take 5).foldl
                   (fun acc issue =>
                     acc ++ str "  • " ++ issue.key ++ str ": " ++ issue.summary
                       ++ str " - " ++ issue.status ++ str " (" ++ issue.priority
                       ++ str ")\n")
                   []
          else [])
      ++ str "\n"
    else str "📋 **JIRA**: No active issues found\n\n"
  let rGithub :=
    (str "💻 **GitHub Activity**:\n  • " ++ natChars githubSummary.commitCount
      ++ str " recent commits\n  • " ++ natChars githubSummary.prCount
      ++ str " open pull requests\n  • Active in "
      ++ natChars githubSummary.repositoryCount ++ str " repositories\n")
    ++ (if !githubSummary.activeRepositories.isEmpty then
          str "  • Repositories: "
            ++ joinSep (str ", ") githubSummary.activeRepositories ++ str "\n"
        else [])
    ++ (if !enrichedData.github.commits.isEmpty then
          str "\nRecent commits:\n"
            ++ (enrichedData.github.commits.take 5).foldl
                 (fun acc commit =>
                   acc ++ str "  • " ++ commit.message ++ str " ("
                     ++ commit.repository ++ str ")\n")
                 []
        else [])
    ++ (if !enrichedData.github.pullRequests.isEmpty then
          str "\nOpen pull requests:\n"
            ++ (enrichedData.github.pullRequests.take 5).foldl
                 (fun acc pr =>
                   acc ++ str "  • " ++ pr.title ++ str " ("
                     ++ pr.repository ++ str ")\n")
                 []
        else [])
  let rLinked :=
    if !linked.isEmpty then
      str "\n🔗 **Linked Work**: " ++ natChars linked.length
        ++ str " commits are connected to JIRA tickets, showing good tracking!\n"
    else []
  let rLevel :=
    str "\n📊 **Activity Level**: " ++ levelChars metrics.activityLevel
      ++ str " (" ++ natChars metrics.totalItems ++ str " total items)"
  let rPatterns :=
    if !enrichedData.workPatterns.isEmpty then
      str "\n\n💡 **Notable Patterns**:\n"
        ++ enrichedData.workPatterns.foldl
             (fun acc p => acc ++ str "  • " ++ p.description ++ str "\n") []
    else []
  let response := r0 ++ rJira ++ rGithub ++ rLinked ++ rLevel ++ rPatterns
  if metrics.totalItems = 0 then
    userName ++ str " doesn\x27t appear to have any recent activity on JIRA or GitHub. "
      ++ str "This could mean they\x27re on vacation, working on a different project, or the data might not be synced yet."
  else response

/-- The error shapes produced by `handleError` (src/utils/errors.js), as
consumed by `generateErrorResponse` (a type tag plus the message). -/
inductive ErrorInfo where
  | userNotFound (userName : List Char)
  | noActivity (userName : List Char)
  | apiError (message : List Char)
  | unknown (message : List Char)
  deriving DecidableEq, Repr

/-- The `message` field that `Error` subclasses in src/utils/errors.js
attach (used by the API_ERROR and generic branches). -/
def errorMessage : ErrorInfo → List Char
  | .userNotFound userName => str "User \"" ++ userName ++ str "\" not found"
  | .noActivity userName => str "No activity found for \"" ++ userName ++ str "\""
  | .apiError message => message
  | .unknown message => message

/-- `ResponseGenerator.generateErrorResponse`: one fixed sentence per
error kind. -/
def generateErrorResponse (error : ErrorInfo) (userName : List Char) : List Char :=
  match error with
  | .userNotFound _ =>
    str "I couldn\x27t find \"" ++ userName
      ++ str "\" in JIRA or GitHub. Please check the spelling or try a different name."
  | .noActivity _ =>
    userName ++ str " doesn\x27t have any recent activity to show. They might be on vacation or working on something else."
  | .apiError message =>
    str "I encountered an issue fetching data: " ++ message
      ++ str ". Please try again in a moment."
  | .unknown message =>
    str "Sorry, I encountered an error: " ++ message ++ str ". Please try again."

/-- Which code path produced the text of a query response. -/
inductive ResponseVia where
  | errorShortCircuit
  | aiStrategy
  | templateStrategy
  deriving DecidableEq, Repr

/-- `ResponseGenerator.generateResponse`: try the AI strategy when
configured, fall back to the template on its failure; without an AI
backend go straight to the template.  Returns the text together with
the strategy that produced it. -/
def generateResponse (useAI : Bool) (ai : GenOutcome)
    (enrichedData : EnrichedModel) (userName : List Char) :
    List Char × ResponseVia :=
  if useAI then
    match ai with
    | .success text => (text, .aiStrategy)
    | .failure => (generateTemplateResponse enrichedData userName, .templateStrategy)
  else (generateTemplateResponse enrichedData userName, .templateStrategy)

/-- The tail of the query route (src/server.js lines 120–155): enrich,
then short-circuit to the NoActivity error narrative when
`metrics.totalItems === 0` — before `generateResponse` is ever invoked —
and otherwise generate a response. -/
def respondAfterAggregation (useAI : Bool) (ai : GenOutcome)
    (jiraData : JiraData) (githubData : GithubData) (timeframe : Option Nat)
    (userName : List Char) : List Char × ResponseVia :=
  let enrichedData := enrich jiraData githubData timeframe
  if enrichedData.metrics.totalItems = 0 then
    (generateErrorResponse (.noActivity userName) userName, .errorShortCircuit)
  else generateResponse useAI ai enrichedData userName

/-! ## Theorems settling the claims -/

/-- Characterization of the inline level-threshold chain of
`calculateMetrics`. -/
theorem activityLevelOf_spec (s : Nat) :
    (activityLevelOf s = .high ↔ s > 20)
      ∧ (activityLevelOf s = .medium ↔ 10 < s ∧ s ≤ 20)
      ∧ (activityLevelOf s = .low ↔ s ≤ 10) := by
  unfold activityLevelOf
  split_ifs with h1 h2 <;> refine ⟨?_, ?_, ?_⟩ <;> simp <;> omega

/-- Claim C2 (confirmed): for every combination of issue, commit and PR
record lists (each possibly absent or empty), `Metrics.totalItems` is
exactly the issue count plus the commit count plus the PR count, and the
repository list never contributes: replacing it by anything else leaves
`totalItems` unchanged. -/
theorem c2_totalItems_is_sum (jiraData : JiraData) (githubData : GithubData)
    (timeframe : Option Nat) :
    (enrich jiraData githubData timeframe).metrics.totalItems =
        (jiraData.issues.getD []).length + (githubData.commits.getD []).length
          + (githubData.pullRequests.getD []).length
      ∧ ∀ repos' : Option (List Repository),
          (enrich jiraData { githubData with repositories := repos' }
              timeframe).metrics.totalItems =
            (enrich jiraData githubData timeframe).metrics.totalItems :=
  ⟨rfl, fun _ => rfl⟩

/-- Claim C3 (confirmed): the enricher computes
`activityScore = 2·issues + 1·commits + 3·PRs`, and the activity level
is determined from the score by strict thresholds — `high` iff
score > 20, `medium` iff 10 < score ≤ 20, `low` iff score ≤ 10 — so in
particular 10 → low, 11 → medium, 20 → medium, 21 → high. -/
theorem c3_activity_score_and_level (jiraData : JiraData)
    (githubData : GithubData) (timeframe : Option Nat) :
    let m := (enrich jiraData githubData timeframe).metrics
    m.activityScore =
        2 * (jiraData.issues.getD []).length
          + 1 * (githubData.commits.getD []).length
          + 3 * (githubData.pullRequests.getD []).length
      ∧ (m.activityLevel = .high ↔ m.activityScore > 20)
      ∧ (m.activityLevel = .medium ↔ 10 < m.activityScore ∧ m.activityScore ≤ 20)
      ∧ (m.activityLevel = .low ↔ m.activityScore ≤ 10)
      ∧ activityLevelOf 10 = .low ∧ activityLevelOf 11 = .medium
      ∧ activityLevelOf 20 = .medium ∧ activityLevelOf 21 = .high := by
  obtain ⟨h1, h2, h3⟩ :=
    activityLevelOf_spec (enrich jiraData githubData timeframe).metrics.activityScore
  exact ⟨by simp [enrich, calculateMetrics]; ring, h1, h2, h3,
    by decide, by decide, by decide, by decide⟩

/-- Claim C9 (confirmed): `enrich` is total on partially-populated
bundles — a bundle with any of the issues, recentActivity, commits,
pullRequests or repositories fields absent is processed exactly as if
that field were an explicit empty list, and a complete `EnrichedModel`
is returned (the embedding is a total function). -/
theorem c9_enrich_total_on_partial_bundles (jiraData : JiraData)
    (githubData : GithubData) (timeframe : Option Nat) :
    enrich jiraData githubData timeframe =
      enrich
        { issues := some (jiraData.issues.getD [])
          recentActivity := some (jiraData.recentActivity.getD []) }
        { commits := some (githubData.commits.getD [])
          pullRequests := some (githubData.pullRequests.getD [])
          repositories := some (githubData.repositories.getD []) }
        timeframe := by
  obtain ⟨ji, jr⟩ := jiraData
  obtain ⟨gc, gp, gr⟩ := githubData
  cases ji <;> cases jr <;> cases gc <;> cases gp <;> cases gr <;> rfl

/-- Claim C6 (confirmed): with both identities resolved, each of the
five aggregated record lists is a function of its own fetch outcome
alone — the bundle is exactly the componentwise settlement, a fulfilled
fetch contributes its records unchanged, and a rejected fetch
contributes `[]`; hence no fetch's failure can alter, block or empty
another fetch's contribution. -/
theorem c6_fetch_failure_isolation (o : FetchOutcomes) :
    aggregateFetches true true o =
        { jiraIssues := settleValue o.jiraIssues
          jiraActivity := settleValue o.jiraActivity
          commits := settleValue o.commits
          prs := settleValue o.prs
          repos := settleValue o.repos }
      ∧ (∀ (α : Type) (v : List α), settleValue (.fulfilled v) = v)
      ∧ (∀ α : Type, settleValue (.rejected : SettledResult (List α)) = []) :=
  ⟨rfl, fun _ _ => rfl, fun _ => rfl⟩

/-- Claim C7 (confirmed): whenever the enriched model has
`totalItems = 0`, the query route answers with the fixed no-activity
narrative, for every generative-backend configuration and outcome, via
the error short-circuit — neither the generative strategy nor the
template renderer produces the response. -/
theorem c7_no_activity_short_circuit (useAI : Bool) (ai : GenOutcome)
    (jiraData : JiraData) (githubData : GithubData) (timeframe : Option Nat)
    (userName : List Char)
    (h : (enrich jiraData githubData timeframe).metrics.totalItems = 0) :
    respondAfterAggregation useAI ai jiraData githubData timeframe userName =
      (userName ++ str " doesn\x27t have any recent activity to show. They might be on vacation or working on something else.",
       .errorShortCircuit) := by
  simp [respondAfterAggregation, generateErrorResponse, h]

/-- Witness for C7: all-absent bundles give `totalItems = 0`, and the
route then returns the fixed narrative even with the generative backend
configured and succeeding. -/
theorem c7_no_activity_short_circuit_witness :
    (enrich ⟨none, none⟩ ⟨none, none, none⟩ none).metrics.totalItems = 0
      ∧ respondAfterAggregation true (.success (str "AI text"))
          ⟨none, none⟩ ⟨none, none, none⟩ none (str "Maya") =
        (str "Maya" ++ str " doesn\x27t have any recent activity to show. They might be on vacation or working on something else.",
         .errorShortCircuit) :=
  ⟨by decide,
   c7_no_activity_short_circuit true (.success (str "AI text"))
     ⟨none, none⟩ ⟨none, none, none⟩ none (str "Maya") (by decide)⟩

/-- Claim C5, counterexample: on a cache miss with a configured token,
a not-found (404) outcome of the direct `/users/:name` lookup makes
`findUser` return absent after that single lookup — no fallback user
search is issued (the search request would even have found a user
here), contradicting the claimed direct-lookup-then-search fallback for
the not-found case.  (A 404 makes `makeRequest` return `null` rather
than throw, and the search lives only in the `catch` block.) -/
theorem c5_findUser_counterexample :
    findUser true none .notFound (.ok [⟨str "maya"⟩]) = (none, 1) := by decide

/-- Claim C5 as amended (proved): `findUser` never throws (it is a total
function into `Option × call count`); with no credential configured it
returns absent with no network call; a cache hit returns the cached
identity with no network call; on a cache miss it issues the direct
lookup, and a not-found or auth-failure outcome yields absent
immediately — the user-search fallback runs only when the direct lookup
throws some other error, in which case its outcome decides the result
and absent is returned on no match or on any search failure. -/
theorem c5_findUser_behaviour :
    ∀ (cached : Option GHUser) (direct : ReqOutcome GHUser)
      (search : ReqOutcome (List GHUser)) (u : GHUser) (us : List GHUser),
      findUser false cached direct search = (none, 0)
        ∧ findUser true (some u) direct search = (some u, 0)
        ∧ findUser true none (.ok u) search = (some u, 1)
        ∧ findUser true none .notFound search = (none, 1)
        ∧ findUser true none .unauthorized search = (none, 1)
        ∧ findUser true none .fail (.ok (u :: us)) = (some u, 2)
        ∧ findUser true none .fail (.ok []) = (none, 2)
        ∧ findUser true none .fail .notFound = (none, 2)
        ∧ findUser true none .fail .unauthorized = (none, 2)
        ∧ findUser true none .fail .fail = (none, 2) :=
  fun _ _ _ _ _ => ⟨rfl, rfl, rfl, rfl, rfl, rfl, rfl, rfl, rfl, rfl⟩

/-- Whether the letter part of a ticket token is all uppercase. -/
def ticketLettersUppercase (t : List Char) : Bool :=
  (t.takeWhile isLetterChar).all isUpperChar

/-- Claim C4, counterexample: the regex is `/([A-Z]+-\d+)/gi` — the `i`
flag makes `[A-Z]` match lowercase letters too — so the message
"fix abc-123" yields the ticket token "abc-123", whose letter part is
not uppercase, contradicting the claim that no such token is included. -/
theorem c4_tickets_counterexample :
    extractJiraTickets (str "fix abc-123") = [str "abc-123"]
      ∧ ticketLettersUppercase (str "abc-123") = false := by decide

/-- Shape of a ticket token: one or more letters (either case), a
hyphen, one or more digits. -/
def isTicketToken (t : List Char) : Bool :=
  !(t.takeWhile isLetterChar).isEmpty &&
    match t.dropWhile isLetterChar with
    | '-' :: ds => !ds.isEmpty && ds.all isDigitChar
    | _ => false

/-- A successful single match produces a token of ticket shape. -/
theorem matchTicketAt_shape (cs tok rest : List Char)
    (h : matchTicketAt cs = some (tok, rest)) : isTicketToken tok = true := by
  unfold matchTicketAt at h
  by_cases hls : (cs.takeWhile isLetterChar).isEmpty
  · simp [hls] at h
  · simp only [hls, Bool.false_eq_true, if_false] at h
    revert h
    split
    · next ds r2 heq =>
      by_cases hds : (r2.takeWhile isDigitChar).isEmpty
      · intro h; simp [hds] at h
      · intro h
        simp only [hds, Bool.false_eq_true, if_false, Option.some.injEq,
          Prod.mk.injEq] at h
        obtain ⟨rfl, _⟩ := h
        have hlsall : (cs.takeWhile isLetterChar).all isLetterChar = true :=
          List.all_eq_true.2 fun c hc => List.mem_takeWhile_imp hc
        have hdsall : (r2.takeWhile isDigitChar).all isDigitChar = true :=
          List.all_eq_true.2 fun c hc => List.mem_takeWhile_imp hc
        -- the token splits back into its letter and digit parts
        have key : ∀ ls : List Char, ls.all isLetterChar = true →
            (ls ++ '-' :: r2.takeWhile isDigitChar).takeWhile isLetterChar = ls
              ∧ (ls ++ '-' :: r2.takeWhile isDigitChar).dropWhile isLetterChar
                  = '-' :: r2.takeWhile isDigitChar := by
          intro ls hall
          have hdash : isLetterChar '-' = false := rfl
          induction ls with
          | nil => simp [List.takeWhile, List.dropWhile, hdash]
          | cons a as iha =>
            simp only [List.all_cons, Bool.and_eq_true] at hall
            have := iha hall.2
            simp [List.takeWhile, List.dropWhile, hall.1, this.1, this.2]
        obtain ⟨hT, hD⟩ := key _ hlsall
        simp only [isTicketToken, hT, hD, hls, hds, hdsall]
        simp
    · intro h; exact absurd h (by simp)

/-- Every token emitted by the global scan has ticket shape. -/
theorem scanTicketsAux_shape (fuel : Nat) :
    ∀ (cs t : List Char), t ∈ scanTicketsAux fuel cs → isTicketToken t = true := by
  induction fuel with
  | zero => intro cs t h; simp [scanTicketsAux] at h
  | succ n ih =>
    intro cs t h
    match cs with
    | [] => simp [scanTicketsAux] at h
    | c :: cs' =>
      rw [scanTicketsAux] at h
      revert h
      split
      · next tok rest heq =>
        intro h
        rcases List.mem_cons.1 h with rfl | h2
        · exact matchTicketAt_shape _ _ _ heq
        · exact ih rest t h2
      · intro h; exact ih cs' t h

/-- Members of the de-duplicated list avoid the seen set. -/
theorem dedupKeepFirst_not_seen [DecidableEq α] :
    ∀ (l seen : List α) (t : α), t ∈ dedupKeepFirst seen l → t ∉ seen := by
  intro l
  induction l with
  | nil => intro seen t h; simp [dedupKeepFirst] at h
  | cons x xs ih =>
    intro seen t h
    rw [dedupKeepFirst] at h
    by_cases hx : x ∈ seen
    · simp only [hx, if_true] at h
      exact ih seen t h
    · simp only [hx, if_false] at h
      rcases List.mem_cons.1 h with rfl | h2
      · exact hx
      · have := ih (x :: seen) t h2
        exact fun hseen => this (List.mem_cons_of_mem x hseen)

/-- De-duplication preserves membership in the source list. -/
theorem dedupKeepFirst_subset [DecidableEq α] :
    ∀ (l seen : List α) (t : α), t ∈ dedupKeepFirst seen l → t ∈ l := by
  intro l
  induction l with
  | nil => intro seen t h; simp [dedupKeepFirst] at h
  | cons x xs ih =>
    intro seen t h
    rw [dedupKeepFirst] at h
    by_cases hx : x ∈ seen
    · simp only [hx, if_true] at h
      exact List.mem_cons_of_mem x (ih seen t h)
    · simp only [hx, if_false] at h
      rcases List.mem_cons.1 h with rfl | h2
      · exact List.mem_cons_self t xs
      · exact List.mem_cons_of_mem x (ih (x :: seen) t h2)

/-- De-duplication yields a list without duplicates. -/
theorem dedupKeepFirst_nodup [DecidableEq α] :
    ∀ (l seen : List α), (dedupKeepFirst seen l).Nodup := by
  intro l
  induction l with
  | nil => intro seen; simp [dedupKeepFirst]
  | cons x xs ih =>
    intro seen
    rw [dedupKeepFirst]
    by_cases hx : x ∈ seen
    · simp only [hx, if_true]; exact ih seen
    · simp only [hx, if_false]
      refine List.nodup_cons.2 ⟨?_, ih (x :: seen)⟩
      intro hmem
      exact dedupKeepFirst_not_seen xs (x :: seen) x hmem (List.mem_cons_self x seen)

/-- Claim C4 as amended (proved): `referencedTicketIds` is the
de-duplicated (first occurrence kept) list of the tokens of the message
matching letters–hyphen–digits **case-insensitively** — every entry has
that shape, no entry repeats, and the message
"fix ABC-123 and ABC-123 again" yields exactly the single entry
"ABC-123". -/
theorem c4_tickets_shape_and_dedup (message t : List Char)
    (h : t ∈ extractJiraTickets message) :
    isTicketToken t = true
      ∧ (extractJiraTickets message).Nodup
      ∧ extractJiraTickets (str "fix ABC-123 and ABC-123 again")
          = [str "ABC-123"] := by
  refine ⟨?_, dedupKeepFirst_nodup _ _, by decide⟩
  have h2 := dedupKeepFirst_subset _ _ _ h
  exact scanTicketsAux_shape _ _ _ h2

/-- Witness for C4 as amended: the de-duplication scenario itself. -/
theorem c4_tickets_shape_and_dedup_witness :
    (str "ABC-123") ∈ extractJiraTickets (str "fix ABC-123 and ABC-123 again")
      ∧ (isTicketToken (str "ABC-123") = true
          ∧ (extractJiraTickets (str "fix ABC-123 and ABC-123 again")).Nodup
          ∧ extractJiraTickets (str "fix ABC-123 and ABC-123 again")
              = [str "ABC-123"]) :=
  ⟨by decide,
   c4_tickets_shape_and_dedup (str "fix ABC-123 and ABC-123 again")
     (str "ABC-123") (by decide)⟩

/-- Claim C1 (code bug): `parse` is not a pure function of its input
text.  The time-pattern regexes are shared across calls with the `g`
flag, so a successful `.test()` leaves `lastIndex` past the match and
the next call on the same text fails to rematch: parsing
"What is Maya doing this week" twice on the same parser yields
`timeframe = some 7` then `timeframe = none`, two different
`ParsedQuery` values.  The other fields are call-independent. -/
theorem c1_parse_is_stateful :
    (parse initParserState (str "What is Maya doing this week")).1.timeframe = some 7
      ∧ (parse (parse initParserState (str "What is Maya doing this week")).2
            (str "What is Maya doing this week")).1.timeframe = none
      ∧ (parse (parse initParserState (str "What is Maya doing this week")).2
            (str "What is Maya doing this week")).1.name
          = (parse initParserState (str "What is Maya doing this week")).1.name
      ∧ (parse initParserState (str "What is Maya doing this week")).1.name
          = some (str "Maya")
      ∧ (parse (parse initParserState (str "What is Maya doing this week")).2
            (str "What is Maya doing this week")).1.intent
          = (parse initParserState (str "What is Maya doing this week")).1.intent
      ∧ (parse (parse initParserState (str "What is Maya doing this week")).2
            (str "What is Maya doing this week")).1.platform
          = (parse initParserState (str "What is Maya doing this week")).1.platform
      ∧ (parse initParserState (str "What is Maya doing this week")).1
          ≠ (parse (parse initParserState (str "What is Maya doing this week")).2
              (str "What is Maya doing this week")).1 := by decide

/-- Claim C8 (confirmed): every `LinkedPair` references a ticket key
present in the given issue list, and permuting the commit list permutes
the emitted pair list accordingly — the multiset of pairs is
order-independent. -/
theorem c8_linking_sound_and_order_independent
    (commits commits' : List Commit) (issues : List JiraIssue)
    (hperm : commits.Perm commits') (p : LinkedPair)
    (hp : p ∈ linkCommitsToTickets commits issues) :
    p.ticket.key ∈ issues.map (·.key)
      ∧ (linkCommitsToTickets commits issues).Perm
          (linkCommitsToTickets commits' issues) := by
  constructor
  · unfold linkCommitsToTickets at hp
    simp only [List.mem_flatMap, List.mem_filterMap] at hp
    obtain ⟨c, _, tk, _, hsome⟩ := hp
    revert hsome
    split
    · split
      · next issue hfind =>
        intro hsome
        cases Option.some.inj hsome
        exact List.mem_map.mpr ⟨issue, List.mem_of_find?_eq_some hfind, rfl⟩
      · intro hsome; exact absurd hsome (by simp)
    · intro hsome; exact absurd hsome (by simp)
  · simp only [linkCommitsToTickets]
    exact hperm.flatMap_right _

/-- Witness for C8: a two-commit list, its swap, one issue; the pair
produced from the ticket-referencing commit is in the linked list, its
key is in the issue set, and the two orders give permuted outputs. -/
theorem c8_linking_witness :
    ([⟨str "a1", str "m1", str "au", 5, str "u1", str "r1", [str "AB-1"]⟩,
      ⟨str "a2", str "m2", str "au", 6, str "u2", str "r2", []⟩] : List Commit).Perm
        [⟨str "a2", str "m2", str "au", 6, str "u2", str "r2", []⟩,
         ⟨str "a1", str "m1", str "au", 5, str "u1", str "r1", [str "AB-1"]⟩]
      ∧ (⟨⟨str "a1", str "m1", 5, str "u1", str "r1"⟩,
            ⟨str "AB-1", str "s", str "Open", str "iu"⟩⟩ : LinkedPair) ∈
          linkCommitsToTickets
            [⟨str "a1", str "m1", str "au", 5, str "u1", str "r1", [str "AB-1"]⟩,
             ⟨str "a2", str "m2", str "au", 6, str "u2", str "r2", []⟩]
            [⟨str "AB-1", str "s", str "Open", str "High", str "Bug", str "iu"⟩]
      ∧ ((⟨⟨str "a1", str "m1", 5, str "u1", str "r1"⟩,
            ⟨str "AB-1", str "s", str "Open", str "iu"⟩⟩ : LinkedPair).ticket.key ∈
            ([⟨str "AB-1", str "s", str "Open", str "High", str "Bug", str "iu"⟩] :
              List JiraIssue).map (·.key)
          ∧ (linkCommitsToTickets
              [⟨str "a1", str "m1", str "au", 5, str "u1", str "r1", [str "AB-1"]⟩,
               ⟨str "a2", str "m2", str "au", 6, str "u2", str "r2", []⟩]
              [⟨str "AB-1", str "s", str "Open", str "High", str "Bug", str "iu"⟩]).Perm
              (linkCommitsToTickets
                [⟨str "a2", str "m2", str "au", 6, str "u2", str "r2", []⟩,
                 ⟨str "a1", str "m1", str "au", 5, str "u1", str "r1", [str "AB-1"]⟩]
                [⟨str "AB-1", str "s", str "Open", str "High", str "Bug", str "iu"⟩])) :=
  ⟨by decide, by decide,
   c8_linking_sound_and_order_independent _ _ _ (by decide) _ (by decide)⟩

instance : IsTotal Repository repoLe :=
  ⟨fun a b => Nat.le_total b.lastCommit a.lastCommit⟩

instance : IsTrans Repository repoLe :=
  ⟨fun _ _ _ h1 h2 => Nat.le_trans h2 h1⟩

/-- Claim C10, counterexample: two commits in different repositories
with the same date produce two entries with equal `lastCommit`, so the
output is not in strictly descending recency order (it is descending
with ties). -/
theorem c10_strict_order_counterexample :
    getRecentRepositories
        [⟨str "s1", str "m1", str "au", 5, str "u1", str "r1", []⟩,
         ⟨str "s2", str "m2", str "au", 5, str "u2", str "r2", []⟩]
      = [⟨str "r1", 1, 5⟩, ⟨str "r2", 1, 5⟩]
    ∧ ¬ (getRecentRepositories
        [⟨str "s1", str "m1", str "au", 5, str "u1", str "r1", []⟩,
         ⟨str "s2", str "m2", str "au", 5, str "u2", str "r2", []⟩]).Pairwise
        (fun a b => b.lastCommit < a.lastCommit) := by decide

/-- When the aggregation map lacks every entry named `n` after an
update, it lacked them before and the commit was for another
repository. -/
theorem updateRepos_any_name_false {m : List Repository} {c : Commit}
    {n : List Char}
    (h : (updateRepos m c).any (fun r => r.name = n) = false) :
    m.any (fun r => r.name = n) = false ∧ c.repository ≠ n := by
  rw [updateRepos] at h
  by_cases hpres : m.any (fun r => r.name = c.repository) = true
  · rw [if_pos hpres] at h
    rw [List.any_eq_false] at h
    constructor
    · rw [List.any_eq_false]
      intro r hrm
      have := h _ (List.mem_map.mpr ⟨r, hrm, rfl⟩)
      by_cases hrc : r.name = c.repository <;> simpa [hrc] using this
    · rw [List.any_eq_true] at hpres
      obtain ⟨r, hrm, hname⟩ := hpres
      intro hcn
      have := h _ (List.mem_map.mpr ⟨r, hrm, rfl⟩)
      simp only [decide_eq_true_eq] at hname
      by_cases hrc : r.name = c.repository <;>
        simp [hrc, hname, hcn] at this
  · rw [if_neg hpres] at h
    rw [List.any_append] at h
    rcases Bool.or_eq_false_iff.mp h with ⟨h1, h2⟩
    refine ⟨h1, ?_⟩
    intro hcn
    simp [hcn] at h2

/-- The count invariant of the `commits.forEach` fold in
`getRecentRepositories`: every entry of the final map either extends an
initial entry of the same name by the number of matching commits, or —
when no initial entry bears its name — counts the matching commits
exactly. -/
theorem foldl_updateRepos_count (rest : List Commit) :
    ∀ (m : List Repository) (r' : Repository),
      r' ∈ rest.foldl updateRepos m →
      (∃ r ∈ m, r.name = r'.name ∧
          r'.commitCount = r.commitCount
            + (rest.filter (fun c => c.repository = r'.name)).length)
        ∨ (m.any (fun r => r.name = r'.name) = false ∧
            r'.commitCount = (rest.filter (fun c => c.repository = r'.name)).length) := by
  induction rest with
  | nil =>
    intro m r' h
    simp only [List.foldl_nil] at h
    exact Or.inl ⟨r', h, rfl, by simp⟩
  | cons c cs ih =>
    intro m r' h
    simp only [List.foldl_cons] at h
    rcases ih (updateRepos m c) r' h with ⟨r2, hr2, hname, hcount⟩ | ⟨hany, hcount⟩
    · by_cases hpres : m.any (fun r => r.name = c.repository) = true
      · rw [updateRepos, if_pos hpres] at hr2
        simp only [List.mem_map] at hr2
        obtain ⟨r, hrm, hg⟩ := hr2
        by_cases hrc : r.name = c.repository
        · rw [if_pos hrc] at hg
          subst hg
          have hname' : r.name = r'.name := hname
          have hcount' : r'.commitCount =
              r.commitCount + 1 + (cs.filter (fun c => c.repository = r'.name)).length :=
            hcount
          have hcr : c.repository = r'.name := hrc ▸ hname'
          refine Or.inl ⟨r, hrm, hname', ?_⟩
          rw [List.filter_cons, if_pos (by simp [hcr])]
          simp only [List.length_cons]
          omega
        · rw [if_neg hrc] at hg
          subst hg
          have hcr : c.repository ≠ r'.name := fun hc => hrc (hname.trans hc.symm)
          refine Or.inl ⟨r, hrm, hname, ?_⟩
          rw [List.filter_cons, if_neg (by simp [hcr])]
          exact hcount
      · rw [updateRepos, if_neg hpres] at hr2
        rcases List.mem_append.mp hr2 with hrm | hnew
        · have hr2c : ¬ (r2.name = c.repository) := by
            intro hcontra
            exact hpres (List.any_eq_true.mpr ⟨r2, hrm, by simp [hcontra]⟩)
          have hcr : c.repository ≠ r'.name := fun hc => hr2c (hname.trans hc.symm)
          refine Or.inl ⟨r2, hrm, hname, ?_⟩
          rw [List.filter_cons, if_neg (by simp [hcr])]
          exact hcount
        · have hnew' : r2 = ⟨c.repository, 1, c.date⟩ := by simpa using hnew
          subst hnew'
          have hcr : c.repository = r'.name := hname
          have hcount' : r'.commitCount =
              1 + (cs.filter (fun c => c.repository = r'.name)).length := hcount
          refine Or.inr ⟨?_, ?_⟩
          · rw [List.any_eq_false]
            intro r hrm
            simp only [decide_eq_true_eq]
            intro hco
            exact hpres (List.any_eq_true.mpr ⟨r, hrm, by simp [hco.trans hcr.symm]⟩)
          · rw [List.filter_cons, if_pos (by simp [hcr])]
            simp only [List.length_cons]
            omega
    · obtain ⟨hanym, hcneq⟩ := updateRepos_any_name_false hany
      refine Or.inr ⟨hanym, ?_⟩
      rw [List.filter_cons, if_neg (by simp [hcneq])]
      exact hcount

/-- Claim C10 as amended (proved): `getRecentRepositories` returns at
most 10 entries, in non-increasing (descending, ties allowed)
last-commit order, and each entry's `commitCount` equals the number of
fetched commits whose repository field matches the entry's name. -/
theorem c10_recent_repositories (commits : List Commit) (r : Repository)
    (hr : r ∈ getRecentRepositories commits) :
    (getRecentRepositories commits).length ≤ 10
      ∧ (getRecentRepositories commits).Pairwise
          (fun a b => b.lastCommit ≤ a.lastCommit)
      ∧ r.commitCount = (commits.filter (fun c => c.repository = r.name)).length := by
  refine ⟨?_, ?_, ?_⟩
  · exact List.length_take_le 10 _
  · have hs := List.sorted_insertionSort repoLe (buildRepos commits)
    exact List.Pairwise.sublist (List.take_sublist _ _) hs
  · have h1 : r ∈ (buildRepos commits).insertionSort repoLe :=
      (List.take_sublist _ _).subset hr
    have h2 : r ∈ buildRepos commits := (List.mem_insertionSort repoLe).mp h1
    rcases foldl_updateRepos_count commits [] r h2 with ⟨r2, hr2, _⟩ | ⟨_, hcount⟩
    · simp at hr2
    · exact hcount

/-- Witness for C10 as amended: three commits across two repositories
with distinct dates; the newest repository leads and counts are per
repository. -/
theorem c10_recent_repositories_witness :
    (⟨str "r2", 1, 9⟩ : Repository) ∈ getRecentRepositories
        [⟨str "s1", str "m1", str "au", 5, str "u1", str "r1", []⟩,
         ⟨str "s2", str "m2", str "au", 9, str "u2", str "r2", []⟩,
         ⟨str "s3", str "m3", str "au", 7, str "u3", str "r1", []⟩]
      ∧ ((getRecentRepositories
            [⟨str "s1", str "m1", str "au", 5, str "u1", str "r1", []⟩,
             ⟨str "s2", str "m2", str "au", 9, str "u2", str "r2", []⟩,
             ⟨str "s3", str "m3", str "au", 7, str "u3", str "r1", []⟩]).length ≤ 10
          ∧ (getRecentRepositories
              [⟨str "s1", str "m1", str "au", 5, str "u1", str "r1", []⟩,
               ⟨str "s2", str "m2", str "au", 9, str "u2", str "r2", []⟩,
               ⟨str "s3", str "m3", str "au", 7, str "u3", str "r1", []⟩]).Pairwise
              (fun a b => b.lastCommit ≤ a.lastCommit)
          ∧ (⟨str "r2", 1, 9⟩ : Repository).commitCount =
              (([⟨str "s1", str "m1", str "au", 5, str "u1", str "r1", []⟩,
                 ⟨str "s2", str "m2", str "au", 9, str "u2", str "r2", []⟩,
                 ⟨str "s3", str "m3", str "au", 7, str "u3", str "r1", []⟩] :
                  List Commit).filter
                (fun c => c.repository = (⟨str "r2", 1, 9⟩ : Repository).name)).length) :=
  ⟨by decide,
   c10_recent_repositories
     [⟨str "s1", str "m1", str "au", 5, str "u1", str "r1", []⟩,
      ⟨str "s2", str "m2", str "au", 9, str "u2", str "r2", []⟩,
      ⟨str "s3", str "m3", str "au", 7, str "u3", str "r1", []⟩]
     ⟨str "r2", 1, 9⟩ (by decide)⟩

end Autonomise
